import Mathlib

/-!
# Verification of the rpcserver job scheduling and poll protocol

A shallow embedding of the job-execution core of `rpcserver/__init__.py`:
the job registry (the global `handlers` dict), the submit path
(`launch_thread`), the worker loop (`HandlerThread.run`), the command
runner (`HandlerThread.execCommand`), the output multiplexer
(`OutputThread.add` / `remove` / `removeId` / `read`) and the poll
protocol (`poll`).

Modelling conventions:
* Python byte strings are modelled as Lean `String`s; `b"".join` becomes
  `joinChunks` and `b" ".join` / `" ".join` become `spaceJoin`.  The
  `.decode("utf-8")` calls are elided since byte content is what the
  properties speak about.
* `time.time()` values are modelled as abstract integer instants passed
  in as parameters; durations are their differences.
* A Python dict holding a job record becomes the `Handler` structure with
  `Option` fields for the keys that may be absent; reading an absent key
  is a `KeyError`, modelled by an explicit error value (an uncaught
  `KeyError` in a worker/multiplexer thread kills that thread).
* The global `handlers` dict becomes `Registry := String → Option Handler`
  threaded through every operation; the per-record `Lock` only matters for
  presence of the `'lock'` key in this sequential interleaving model (the
  interleavings themselves are made explicit as event traces).
-/

/-- A job record: the dict stored in the global `handlers` map.  Fields
are `Option` because the corresponding dict keys are created at different
points of the job lifecycle (`launch_thread` creates only `status` and
`queueTime`; `HandlerThread.run` adds `lock`, `processTime`, `data`,
`polldata`; `execCommand` adds `pipe` and `result`). -/
structure Handler where
  status : String
  queueTime : Option Int
  processTime : Option Int
  hasLock : Bool
  data : Option (List String)
  polldata : Option (List String)
  error : Option String
  result : Option (Option String)
  results : Option String
  pipe : Option Nat
  deriving DecidableEq, Repr

/-- The global `handlers` dict: job id to job record. -/
def Registry : Type := String → Option Handler

/-- Dict assignment `handlers[id] = h`. -/
def updateReg (reg : Registry) (id : String) (h : Handler) : Registry :=
  fun x => if x = id then some h else reg x

/-- Dict deletion `del handlers[id]`. -/
def eraseReg (reg : Registry) (id : String) : Registry :=
  fun x => if x = id then none else reg x

/-- `b"".join(chunks)`: concatenation of byte chunks with no separator. -/
def joinChunks : List String → String
  | [] => ""
  | c :: cs => c ++ joinChunks cs

/-- `b" ".join(chunks)` and `" ".join(parts)`: join with a single space
between consecutive elements. -/
def spaceJoin : List String → String
  | [] => ""
  | [c] => c
  | c :: cs => c ++ " " ++ spaceJoin cs

/-- The static routing table `queueMap`: operation name to queue
category. -/
def queueMap : String → Option String
  | "upload_inputs" => some "internal-network-bound"
  | "convert_inputs" => some "cpu-bound"
  | "download_proxies" => some "internal-network-bound"
  | "download_editables" => some "internal-network-bound"
  | "upload_edl" => some "local"
  | "upload_proxy_edl" => some "local"
  | "render_edl" => some "cpu-bound"
  | "upload_to_youtube" => some "external-network-bound"
  | "archive_to_s3" => some "external-network-bound"
  | "make_slideshow" => some "cpu-bound"
  | _ => none

/-- The operation names for which `HandlerThread` has a handler method
(`hasattr(self, method)` for the job methods defined on the class). -/
def knownMethods : List String :=
  ["upload_inputs", "convert_inputs", "download_proxies",
   "download_editables", "upload_edl", "upload_proxy_edl", "render_edl",
   "upload_to_youtube", "archive_to_s3", "make_slideshow"]

/-- The `{"method": .., "args": .., "id": ..}` dict that `launch_thread`
puts on a category queue.  The operation arguments are opaque to the
scheduling core; they are modelled as a key-value list. -/
structure Envelope where
  method : String
  args : List (String × String)
  id : String
  deriving DecidableEq, Repr

/-- The process-wide mutable state touched by `launch_thread`: the
`handlers` registry, the four category queues (modelled as a total map
from category name to queued envelopes; the code's `queues` dict always
holds every category that `queueMap` can produce, so its
`if not queue` fallback branch is unreachable), and which
`handlerThreads` entries have been started. -/
structure ServerState where
  handlers : Registry
  queues : String → List Envelope
  threadsStarted : String → Bool

/-- The record `launch_thread` installs: a dict with exactly the keys
`status` (= "queued") and `queueTime` (= now). -/
def freshHandler (now : Int) : Handler :=
  { status := "queued", queueTime := some now, processTime := none,
    hasLock := false, data := none, polldata := none, error := none,
    result := none, results := none, pipe := none }

/-- `launch_thread(method, args)`: validates the caller-supplied job id
(`if not id_: raise`), routes `method` through `queueMap` with fallback
category "local", unconditionally overwrites `handlers[id_]` with a fresh
queued record, appends the envelope to the category queue
(`queue.put(data, block=False)` on an unbounded queue), starts the
category's handler thread if not yet running, and returns the advisory
poll message. -/
def launch_thread (st : ServerState) (method : String)
    (args : List (String × String)) (reqId : Option String) (now : Int) :
    Except String (String × ServerState) :=
  match reqId with
  | none => .error "No ID found, screw this"
  | some id =>
    if id = "" then .error "No ID found, screw this"
    else
      let queueName := (queueMap method).getD "local"
      let env : Envelope := { method := method, args := args, id := id }
      .ok ("Please poll with id " ++ id,
        { handlers := updateReg st.handlers id (freshHandler now),
          queues := fun q =>
            if q = queueName then st.queues q ++ [env] else st.queues q,
          threadsStarted := fun q =>
            if q = queueName then true else st.threadsStarted q })

/-- The failure modes of `poll`: the explicit unknown-id exception, an
uncaught `KeyError` from reading a record key that is not there yet, and
the re-raise of a stored job error on the terminal poll. -/
inductive PollErr where
  | unknownId : PollErr
  | keyError : String → PollErr
  | jobError : String → PollErr
  deriving DecidableEq, Repr

/-- The response dict `poll` returns. -/
structure PollResponse where
  status : String
  result : String
  queueDuration : Int
  processDuration : Int
  deriving DecidableEq, Repr

/-- `poll(id)`: raise if `id` is unknown; under the record's lock append
`b"".join(data)` to `polldata` and clear `data`; build the response from
the current status, `polldata[-1]`, `queueTime` and
`time.time() - processTime`; if status is "complete", replace `result`
with `b"".join(polldata)` and `processDuration` with the stored duration,
delete the record, and re-raise any stored error.  The returned registry
reflects every mutation performed before a raise (Python raises do not
roll back dict mutations). -/
def poll (reg : Registry) (id : String) (now : Int) :
    Except PollErr PollResponse × Registry :=
  match reg id with
  | none => (.error .unknownId, reg)
  | some h =>
    let status := h.status
    if h.hasLock = false then (.error (.keyError "lock"), reg)
    else
      match h.polldata with
      | none => (.error (.keyError "polldata"), reg)
      | some pd =>
        match h.data with
        | none => (.error (.keyError "data"), reg)
        | some d =>
          let pd₁ := pd ++ [joinChunks d]
          let reg₁ := updateReg reg id { h with polldata := some pd₁, data := some [] }
          match h.queueTime with
          | none => (.error (.keyError "queueTime"), reg₁)
          | some qt =>
            match h.processTime with
            | none => (.error (.keyError "processTime"), reg₁)
            | some pt =>
              let r₀ : PollResponse :=
                { status := status, result := pd₁.getLastD "",
                  queueDuration := qt, processDuration := now - pt }
              if status = "complete" then
                let r₁ := { r₀ with result := joinChunks pd₁,
                                    processDuration := pt }
                let reg₂ := eraseReg reg₁ id
                match h.error with
                | some e => (.error (.jobError e), reg₂)
                | none => (.ok r₁, reg₂)
              else (.ok r₀, reg₁)

/-- The setup portion of one `HandlerThread.run` iteration, after the
record has been looked up: install the lock, set status "in-progress",
set `processTime` to the instant `t₁` (`time.time()`), replace
`queueTime` by the elapsed queue duration `t₂ - queueTime` (a second
`time.time()` call, at instant `t₂`), and reset `data`/`polldata`.
Returns `none` when the record lacks `queueTime` (the uncaught `KeyError`
that would kill the worker thread). -/
def startJob (h : Handler) (t₁ t₂ : Int) : Option Handler :=
  h.queueTime.map fun qt =>
    { h with hasLock := true, status := "in-progress",
             processTime := some t₁, queueTime := some (t₂ - qt),
             data := some [], polldata := some [] }

/-- The `try`/`except` portion of one `HandlerThread.run` iteration:
if `method` is not an attribute of the thread, the raised
"No thread handler exists" exception is caught and stored as the job
error; otherwise the handler body's outcome (modelled as a parameter:
either a returned output or a raised message) is recorded — a truthy
return value goes to `results`, a raised message to `error`. -/
def tryPhase (h : Handler) (method : String)
    (outcome : Except String (Option String)) : Handler :=
  if method ∈ knownMethods then
    match outcome with
    | .ok none => h
    | .ok (some out) => if out = "" then h else { h with results := some out }
    | .error msg => { h with error := some msg }
  else { h with error := some ("No thread handler exists for method " ++ method) }

/-- The finishing portion of one `HandlerThread.run` iteration (runs
whether or not the handler raised): set status "complete" and replace
`processTime` by the elapsed execution duration `tEnd - processTime`.
Returns `none` on the impossible-in-flow missing `processTime`. -/
def finishPhase (h : Handler) (tEnd : Int) : Option Handler :=
  h.processTime.map fun pt =>
    { h with status := "complete", processTime := some (tEnd - pt) }

/-- One full iteration of the `HandlerThread.run` worker loop on a
dequeued item.  `none` result means the iteration raised an uncaught
exception, killing the worker thread; `some reg'` means the loop
continues to the next queued envelope with the registry in state `reg'`.
A falsy item or an item without id/method is skipped (`continue`).  A
missing registry record makes the code insert `{}` and then die on the
`queueTime` `KeyError`. -/
def runStep (reg : Registry) (item : Option Envelope)
    (outcome : Except String (Option String)) (t₁ t₂ tEnd : Int) :
    Option Registry :=
  match item with
  | none => some reg
  | some env =>
    if env.id = "" ∨ env.method = "" then some reg
    else
      match reg env.id with
      | none => none
      | some h =>
        (startJob h t₁ t₂).bind fun h₁ =>
          (finishPhase (tryPhase h₁ env.method outcome) tEnd).map fun h₃ =>
            updateReg reg env.id h₃

/-- Outcome of `HandlerThread.execCommand` after the spawned process has
exited: an uncaught `KeyError` (kills the worker), a raised failure
message (caught by `run`, which stores it as the job error), or normal
completion with the updated registry. -/
inductive ExecResult where
  | crash : String → ExecResult
  | raised : String → ExecResult
  | done : Registry → ExecResult

/-- The post-`wait` half of `HandlerThread.execCommand`: with the process
exited with code `retCode` and the multiplexer having already appended
the captured chunks into the record's `data`, close the pipe, compute
`output = b" ".join(data).decode()` when `data` is non-empty (else
`None`), and either raise the failure message carrying the command line,
exit code and output (non-zero exit) or store `output` into the record's
`result` key (zero exit).  The spawn/register/wait steps are represented
by their observable effects: `retCode` and the chunks already in `data`. -/
def execCommand (reg : Registry) (id : String) (command : List String)
    (retCode : Int) : ExecResult :=
  match reg id with
  | none => .crash "id"
  | some h =>
    if h.hasLock = false then .crash "lock"
    else
      match h.data with
      | none => .crash "data"
      | some d =>
        let output : Option String := if d = [] then none else some (spaceJoin d)
        if retCode ≠ 0 then
          let base := "Command: " ++ spaceJoin command ++ " returned " ++
                      toString retCode
          .raised (match output with
                   | some o => if o = "" then base
                               else base ++ "\n\nOutput: " ++ o
                   | none => base)
        else .done (updateReg reg id { h with result := some output })

/-- The `OutputThread` multiplexer's own state: the set of stream handles
registered with the selector, and the `idMap` reverse lookup from stream
handle to job id.  Stream handles are modelled as naturals. -/
structure OutputState where
  registered : List Nat
  idMap : Nat → Option String

/-- `OutputThread.remove(fd)`: `del self.idMap[fd]` (raises `KeyError`
when `fd` is not a key), then `sel.unregister(fd)` (raises `KeyError`
when `fd` is not registered), then close the handle. -/
def OutputThread.remove (os : OutputState) (fd : Nat) :
    Except String OutputState :=
  match os.idMap fd with
  | none => .error "KeyError: idMap del"
  | some _ =>
    if fd ∈ os.registered then
      .ok { registered := os.registered.erase fd,
            idMap := fun x => if x = fd then none else os.idMap x }
    else .error "KeyError: sel.unregister"

/-- `OutputThread.removeId(id_)`: look up the record's pipe handle
(`KeyError` when the id or its `pipe` key is missing) and remove it. -/
def OutputThread.removeId (os : OutputState) (reg : Registry)
    (id? : Option String) : Except String OutputState :=
  match id? with
  | none => .error "KeyError: id None"
  | some id =>
    match reg id with
    | none => .error "KeyError: handlers"
    | some h =>
      match h.pipe with
      | none => .error "KeyError: pipe"
      | some fd => OutputThread.remove os fd

/-- `OutputThread.add(id_)`: record the reverse lookup
`idMap[fd] = id_`, then `try: sel.register(fd, ...) except KeyError:
pass` — a duplicate registration raises `KeyError` inside the selector
and is deliberately swallowed, so `add` never propagates the anomaly. -/
def OutputThread.add (os : OutputState) (reg : Registry) (id : String) :
    Except String OutputState :=
  match reg id with
  | none => .error "KeyError: handlers"
  | some h =>
    match h.pipe with
    | none => .error "KeyError: pipe"
    | some fd =>
      .ok { registered := if fd ∈ os.registered then os.registered
                          else fd :: os.registered,
            idMap := fun x => if x = fd then some id else os.idMap x }

/-- `OutputThread.read(fd, mask)`: `chunk` is what `fd.read(1024)`
returned.  A non-empty chunk for a known id with a live record is
appended to the record's `data` under its lock; an empty chunk
(end-of-stream), an unknown fd, or a dead record falls through to
`removeId`. -/
def OutputThread.read (os : OutputState) (reg : Registry) (fd : Nat)
    (chunk : String) : Except String (OutputState × Registry) :=
  let id? := os.idMap fd
  let handler? : Option Handler :=
    match id? with
    | some id => reg id
    | none => none
  if chunk ≠ "" then
    match id?, handler? with
    | some id, some h =>
      if id ≠ "" then
        if h.hasLock = false then .error "KeyError: lock"
        else
          match h.data with
          | none => .error "KeyError: data"
          | some d =>
            .ok (os, updateReg reg id { h with data := some (d ++ [chunk]) })
      else (OutputThread.removeId os reg id?).map (·, reg)
    | _, _ => (OutputThread.removeId os reg id?).map (·, reg)
  else (OutputThread.removeId os reg id?).map (·, reg)

/-- An observable event in the life of one running job: the multiplexer
reads a chunk of subprocess output (via `OutputThread.read`), or a
client polls the job (via `poll`). -/
inductive JobEvent where
  | produce : String → JobEvent
  | clientPoll : Int → JobEvent
  deriving DecidableEq, Repr

/-- Apply one event to the registry, accumulating the `result` values
returned by successful polls. -/
def traceStep (os : OutputState) (fd : Nat) (id : String)
    (acc : Registry × List String) (e : JobEvent) :
    Registry × List String :=
  match e with
  | .produce c =>
    match OutputThread.read os acc.1 fd c with
    | .ok (_, reg') => (reg', acc.2)
    | .error _ => acc
  | .clientPoll now =>
    match poll acc.1 id now with
    | (.ok r, reg') => (reg', acc.2 ++ [r.result])
    | (.error _, reg') => (reg', acc.2)

/-- Run a sequence of produce/poll events. -/
def runTrace (os : OutputState) (fd : Nat) (id : String)
    (acc : Registry × List String) : List JobEvent → Registry × List String
  | [] => acc
  | e :: es => runTrace os fd id (traceStep os fd id acc e) es

/-- The bytes the subprocess emitted over a trace: the concatenation of
all produced chunks. -/
def producedOutput : List JobEvent → String
  | [] => ""
  | .produce c :: es => c ++ producedOutput es
  | .clientPoll _ :: es => producedOutput es

/-- The empty server state at process start: no job records, empty
queues, no handler threads running. -/
def initialState : ServerState :=
  { handlers := fun _ => none, queues := fun _ => [],
    threadsStarted := fun _ => false }

/-- A singleton registry holding one record under id "j", used to
instantiate the general theorems at concrete inputs. -/
def sampleReg (h : Handler) : Registry :=
  updateReg (fun _ => none) "j" h

/-- A concrete in-progress record with one undrained chunk. -/
def sampleInProgress : Handler :=
  { status := "in-progress", queueTime := some 3, processTime := some 10,
    hasLock := true, data := some ["ab"], polldata := some [],
    error := none, result := none, results := none, pipe := some 5 }

/-- A concrete complete, error-free record. -/
def sampleComplete : Handler :=
  { status := "complete", queueTime := some 3, processTime := some 7,
    hasLock := true, data := some ["out"], polldata := some ["pre"],
    error := none, result := none, results := none, pipe := some 5 }

/-- A concrete complete record carrying a stored job error. -/
def sampleErrored : Handler :=
  { sampleComplete with error := some "boom" }

/-- A concrete in-progress record with two buffered chunks. -/
def sampleTwoChunks : Handler :=
  { status := "in-progress", queueTime := some 1, processTime := some 2,
    hasLock := true, data := some ["A", "B"], polldata := some [],
    error := none, result := none, results := none, pipe := some 4 }

/-! ## Basic lemmas about the byte-chunk joins -/

theorem joinChunks_append (l₁ l₂ : List String) :
    joinChunks (l₁ ++ l₂) = joinChunks l₁ ++ joinChunks l₂ := by
  induction l₁ with
  | nil => simp [joinChunks, String.empty_append]
  | cons c cs ih => simp [joinChunks, ih, String.append_assoc]

theorem joinChunks_singleton (c : String) : joinChunks [c] = c := by
  simp [joinChunks, String.append_empty]

theorem joinChunks_nil : joinChunks [] = "" := rfl

/-! ## Behaviour of `poll` on well-formed records -/

/-- A poll on an in-progress record drains all of `data` into `polldata`
as one appended chunk, clears `data`, and returns the just-drained bytes
with the stored queue duration and the elapsed-so-far execution time. -/
theorem poll_inProgress (reg : Registry) (id : String) (h : Handler)
    (d pd : List String) (qt pt now : Int)
    (hreg : reg id = some h) (hst : h.status = "in-progress")
    (hlk : h.hasLock = true) (hd : h.data = some d)
    (hpd : h.polldata = some pd) (hqt : h.queueTime = some qt)
    (hpt : h.processTime = some pt) :
    poll reg id now =
      (.ok { status := "in-progress", result := joinChunks d,
             queueDuration := qt, processDuration := now - pt },
       updateReg reg id { h with polldata := some (pd ++ [joinChunks d]),
                                 data := some [] }) := by
  simp [poll, hreg, hst, hlk, hd, hpd, hqt, hpt, List.getLastD_concat]

/-- A poll that observes a complete, error-free record drains, returns
the concatenation of every `polldata` chunk with the final durations, and
deletes the record. -/
theorem poll_complete (reg : Registry) (id : String) (h : Handler)
    (d pd : List String) (qt pt now : Int)
    (hreg : reg id = some h) (hst : h.status = "complete")
    (hlk : h.hasLock = true) (hd : h.data = some d)
    (hpd : h.polldata = some pd) (hqt : h.queueTime = some qt)
    (hpt : h.processTime = some pt) (herr : h.error = none) :
    poll reg id now =
      (.ok { status := "complete",
             result := joinChunks (pd ++ [joinChunks d]),
             queueDuration := qt, processDuration := pt },
       eraseReg (updateReg reg id
         { h with polldata := some (pd ++ [joinChunks d]),
                  data := some [] }) id) := by
  simp [poll, hreg, hst, hlk, hd, hpd, hqt, hpt, herr]

/-- A poll that observes a complete record carrying an error drains,
deletes the record, and re-raises the stored error. -/
theorem poll_complete_error (reg : Registry) (id : String) (h : Handler)
    (d pd : List String) (qt pt now : Int) (e : String)
    (hreg : reg id = some h) (hst : h.status = "complete")
    (hlk : h.hasLock = true) (hd : h.data = some d)
    (hpd : h.polldata = some pd) (hqt : h.queueTime = some qt)
    (hpt : h.processTime = some pt) (herr : h.error = some e) :
    poll reg id now =
      (.error (.jobError e),
       eraseReg (updateReg reg id
         { h with polldata := some (pd ++ [joinChunks d]),
                  data := some [] }) id) := by
  simp [poll, hreg, hst, hlk, hd, hpd, hqt, hpt, herr]

/-- A poll on an identifier with no registry record raises the
unknown-id error and leaves the registry untouched. -/
theorem poll_unknown (reg : Registry) (id : String) (now : Int)
    (hreg : reg id = none) :
    poll reg id now = (.error .unknownId, reg) := by
  simp [poll, hreg]

/-- After `eraseReg`, the erased id looks up to `none`. -/
theorem eraseReg_self (reg : Registry) (id : String) :
    eraseReg reg id id = none := by
  simp [eraseReg]

/-- `eraseReg` touches no other id. -/
theorem eraseReg_other (reg : Registry) (id j : String) (hj : j ≠ id) :
    eraseReg reg id j = reg j := by
  simp [eraseReg, hj]

theorem updateReg_self (reg : Registry) (id : String) (h : Handler) :
    updateReg reg id h id = some h := by
  simp [updateReg]

/-! ## Behaviour of the multiplexer read and the event traces -/

/-- A non-empty chunk read for a registered stream of a live record is
appended to that record's `data` under its lock; nothing else changes. -/
theorem read_append (os : OutputState) (reg : Registry) (fd : Nat)
    (id : String) (h : Handler) (d : List String) (c : String)
    (hos : os.idMap fd = some id) (hid : id ≠ "")
    (hreg : reg id = some h) (hlk : h.hasLock = true)
    (hd : h.data = some d) (hc : c ≠ "") :
    OutputThread.read os reg fd c =
      .ok (os, updateReg reg id { h with data := some (d ++ [c]) }) := by
  simp [OutputThread.read, hos, hreg, hid, hlk, hd, hc]

/-- Invariant of a produce/poll event trace over one in-progress job:
the record stays in-progress with its lock, timestamps and error intact;
the concatenation of all poll `result` values plus the bytes still
pending in `data` equals the initial content plus everything produced;
and the same accounting holds for `polldata`.  No byte is duplicated and
none is dropped. -/
theorem runTrace_inv (os : OutputState) (fd : Nat) (id : String)
    (hos : os.idMap fd = some id) (hid : id ≠ "") :
    ∀ (es : List JobEvent), (∀ c, JobEvent.produce c ∈ es → c ≠ "") →
    ∀ (reg : Registry) (res : List String) (h : Handler)
      (d pd : List String) (qt pt : Int),
      reg id = some h → h.status = "in-progress" → h.hasLock = true →
      h.data = some d → h.polldata = some pd →
      h.queueTime = some qt → h.processTime = some pt →
      ∃ (h' : Handler) (d' pd' : List String),
        (runTrace os fd id (reg, res) es).1 id = some h' ∧
        h'.status = "in-progress" ∧ h'.hasLock = true ∧
        h'.data = some d' ∧ h'.polldata = some pd' ∧
        h'.queueTime = some qt ∧ h'.processTime = some pt ∧
        h'.error = h.error ∧
        joinChunks (runTrace os fd id (reg, res) es).2 ++ joinChunks d' =
          joinChunks res ++ (joinChunks d ++ producedOutput es) ∧
        joinChunks pd' ++ joinChunks d' =
          joinChunks pd ++ (joinChunks d ++ producedOutput es) := by
  intro es
  induction es with
  | nil =>
    intro _ reg res h d pd qt pt hreg hst hlk hd hpd hqt hpt
    exact ⟨h, d, pd, hreg, hst, hlk, hd, hpd, hqt, hpt, rfl,
      by simp [runTrace, producedOutput, String.append_empty],
      by simp [runTrace, producedOutput, String.append_empty]⟩
  | cons e es ih =>
    intro hch reg res h d pd qt pt hreg hst hlk hd hpd hqt hpt
    cases e with
    | produce c =>
      have hc : c ≠ "" := hch c (List.mem_cons_self _ _)
      have hch' : ∀ c', JobEvent.produce c' ∈ es → c' ≠ "" :=
        fun c' hc' => hch c' (List.mem_cons_of_mem _ hc')
      have hstep : traceStep os fd id (reg, res) (.produce c) =
          (updateReg reg id { h with data := some (d ++ [c]) }, res) := by
        simp [traceStep, read_append os reg fd id h d c hos hid hreg hlk hd hc]
      obtain ⟨h', d', pd', hmem, hst', hlk', hd', hpd', hqt', hpt', herr',
              hres', hpoll'⟩ :=
        ih hch' (updateReg reg id { h with data := some (d ++ [c]) }) res
          { h with data := some (d ++ [c]) } (d ++ [c]) pd qt pt
          (updateReg_self _ _ _) hst hlk rfl hpd hqt hpt
      refine ⟨h', d', pd', ?_, hst', hlk', hd', hpd', hqt', hpt', herr', ?_, ?_⟩
      · simpa [runTrace, hstep] using hmem
      · simp only [runTrace, hstep]
        rw [hres']
        simp [producedOutput, joinChunks_append, joinChunks_singleton,
              String.append_assoc]
      · rw [hpoll']
        simp [producedOutput, joinChunks_append, joinChunks_singleton,
              String.append_assoc]
    | clientPoll now =>
      have hch' : ∀ c', JobEvent.produce c' ∈ es → c' ≠ "" :=
        fun c' hc' => hch c' (List.mem_cons_of_mem _ hc')
      have hstep : traceStep os fd id (reg, res) (.clientPoll now) =
          (updateReg reg id { h with polldata := some (pd ++ [joinChunks d]),
                                     data := some [] },
           res ++ [joinChunks d]) := by
        simp [traceStep,
              poll_inProgress reg id h d pd qt pt now hreg hst hlk hd hpd hqt hpt]
      obtain ⟨h', d', pd', hmem, hst', hlk', hd', hpd', hqt', hpt', herr',
              hres', hpoll'⟩ :=
        ih hch'
          (updateReg reg id { h with polldata := some (pd ++ [joinChunks d]),
                                     data := some [] })
          (res ++ [joinChunks d])
          { h with polldata := some (pd ++ [joinChunks d]), data := some [] }
          [] (pd ++ [joinChunks d]) qt pt
          (updateReg_self _ _ _) hst hlk rfl rfl hqt hpt
      refine ⟨h', d', pd', ?_, hst', hlk', hd', hpd', hqt', hpt', herr', ?_, ?_⟩
      · simpa [runTrace, hstep] using hmem
      · simp only [runTrace, hstep]
        rw [hres']
        simp [producedOutput, joinChunks_append, joinChunks_singleton,
              joinChunks_nil, String.append_assoc, String.empty_append]
      · rw [hpoll']
        simp [producedOutput, joinChunks_append, joinChunks_singleton,
              joinChunks_nil, String.append_assoc, String.empty_append]

/-! ## Claim theorems -/

/-- Claim C2: `poll` raises when the identifier has no registry record
(never submitted or already delivered); for a completed (error-free)
job exactly one poll returns status "complete" — that terminal poll
deletes the record, and every subsequent poll with the same id raises
the unknown-identifier error.  (The in-progress conjunct shows that no
earlier poll can return "complete".) -/
theorem claim_C2_terminal_poll_exactly_once
    (reg regU : Registry) (id idU : String) (now now₂ now₃ : Int)
    (h : Handler) (d pd : List String) (qt pt : Int)
    (hreg : reg id = some h) (hst : h.status = "complete")
    (hlk : h.hasLock = true) (hd : h.data = some d)
    (hpd : h.polldata = some pd) (hqt : h.queueTime = some qt)
    (hpt : h.processTime = some pt) (herr : h.error = none)
    (hU : regU idU = none) :
    poll regU idU now₃ = (.error .unknownId, regU) ∧
    (poll reg id now).1 =
      .ok { status := "complete",
            result := joinChunks (pd ++ [joinChunks d]),
            queueDuration := qt, processDuration := pt } ∧
    (poll reg id now).2 id = none ∧
    (poll ((poll reg id now).2) id now₂).1 = .error .unknownId := by
  have hc := poll_complete reg id h d pd qt pt now hreg hst hlk hd hpd hqt hpt herr
  refine ⟨poll_unknown _ _ _ hU, ?_, ?_, ?_⟩
  · rw [hc]
  · rw [hc]; exact eraseReg_self _ _
  · rw [hc]
    rw [poll_unknown _ _ _ (eraseReg_self _ _)]

/-- Witness for C2 at a concrete registry. -/
theorem claim_C2_witness :
    poll (fun _ => none) "k" 9 = (.error .unknownId, fun _ => none) ∧
    (poll (sampleReg sampleComplete) "j" 20).1 =
      .ok { status := "complete",
            result := joinChunks (["pre"] ++ [joinChunks ["out"]]),
            queueDuration := 3, processDuration := 7 } ∧
    (poll (sampleReg sampleComplete) "j" 20).2 "j" = none ∧
    (poll ((poll (sampleReg sampleComplete) "j" 20).2) "j" 21).1 =
      .error .unknownId :=
  claim_C2_terminal_poll_exactly_once (sampleReg sampleComplete)
    (fun _ => none) "j" "k" 20 21 9 sampleComplete ["out"] ["pre"] 3 7
    rfl rfl rfl rfl rfl rfl rfl rfl rfl

/-- Claim C9: on a completed job whose record carries an error, the
first poll that observes status "complete" drains `data` into
`polldata`, deletes the record, and only then raises the stored
error; the deletion is not undone by the raise (the raised branch
returns the registry with the record gone and all other records
untouched), the error is raised exactly once, and every later poll with
that identifier raises the unknown-identifier error instead. -/
theorem claim_C9_error_raised_once
    (reg : Registry) (id : String) (now now₂ : Int)
    (h : Handler) (d pd : List String) (qt pt : Int) (e : String)
    (hreg : reg id = some h) (hst : h.status = "complete")
    (hlk : h.hasLock = true) (hd : h.data = some d)
    (hpd : h.polldata = some pd) (hqt : h.queueTime = some qt)
    (hpt : h.processTime = some pt) (herr : h.error = some e) :
    (poll reg id now).1 = .error (.jobError e) ∧
    (poll reg id now).2 =
      eraseReg (updateReg reg id
        { h with polldata := some (pd ++ [joinChunks d]),
                 data := some [] }) id ∧
    (poll reg id now).2 id = none ∧
    (∀ j, j ≠ id → (poll reg id now).2 j = reg j) ∧
    (poll ((poll reg id now).2) id now₂).1 = .error .unknownId := by
  have hc := poll_complete_error reg id h d pd qt pt now e hreg hst hlk hd hpd hqt hpt herr
  refine ⟨?_, ?_, ?_, ?_, ?_⟩
  · rw [hc]
  · rw [hc]
  · rw [hc]; exact eraseReg_self _ _
  · intro j hj
    simp [hc, eraseReg, updateReg, hj]
  · rw [hc, poll_unknown _ _ _ (eraseReg_self _ _)]

/-- Witness for C9 at a concrete registry. -/
theorem claim_C9_witness :
    (poll (sampleReg sampleErrored) "j" 20).1 = .error (.jobError "boom") ∧
    (poll (sampleReg sampleErrored) "j" 20).2 =
      eraseReg (updateReg (sampleReg sampleErrored) "j"
        { sampleErrored with polldata := some (["pre"] ++ [joinChunks ["out"]]),
                             data := some [] }) "j" ∧
    (poll (sampleReg sampleErrored) "j" 20).2 "j" = none ∧
    (∀ j, j ≠ "j" → (poll (sampleReg sampleErrored) "j" 20).2 j =
      sampleReg sampleErrored j) ∧
    (poll ((poll (sampleReg sampleErrored) "j" 20).2) "j" 21).1 =
      .error .unknownId :=
  claim_C9_error_raised_once (sampleReg sampleErrored) "j" 20 21
    sampleErrored ["out"] ["pre"] 3 7 "boom" rfl rfl rfl rfl rfl rfl rfl rfl

/-- Claim C5 (code bug): the claim says a poll on a freshly submitted,
not yet dequeued job returns a normal response with status "queued" or
"in-progress".  The code instead dies with a `KeyError`: the record
`launch_thread` installs has only the `status` and `queueTime` keys, and
`poll` unconditionally evaluates `handler['lock']`, which is first
created by the worker when it dequeues the job.  This theorem runs the
code at the failing input: submit id "abc", then poll it. -/
theorem claim_C5_poll_on_queued_job_keyerror :
    (match launch_thread initialState "render_edl" [] (some "abc") 100 with
     | .ok p =>
         p.1 = "Please poll with id abc" ∧
         p.2.handlers "abc" = some (freshHandler 100) ∧
         (freshHandler 100).status = "queued" ∧
         (poll p.2.handlers "abc" 101).1 = .error (.keyError "lock")
     | .error _ => False) := by
  refine ⟨by decide, rfl, rfl, rfl⟩

/-- Claim C10: submitting a job id that already has an outstanding
record (queued, running, or completed-but-unpolled) does not raise:
`launch_thread` unconditionally overwrites the record with a fresh dict
holding only status "queued" and the new enqueue timestamp, discarding
the previous job's status, buffered output, and error. -/
theorem claim_C10_resubmit_overwrites
    (st : ServerState) (method : String) (args : List (String × String))
    (id : String) (now : Int) (h : Handler)
    (hid : id ≠ "") (_hex : st.handlers id = some h) :
    ∃ st', launch_thread st method args (some id) now =
        .ok ("Please poll with id " ++ id, st') ∧
      st'.handlers id = some (freshHandler now) ∧
      freshHandler now =
        { status := "queued", queueTime := some now, processTime := none,
          hasLock := false, data := none, polldata := none, error := none,
          result := none, results := none, pipe := none } := by
  refine ⟨{ handlers := updateReg st.handlers id (freshHandler now),
            queues := fun q =>
              if q = (queueMap method).getD "local"
              then st.queues q ++ [{ method := method, args := args, id := id }]
              else st.queues q,
            threadsStarted := fun q =>
              if q = (queueMap method).getD "local"
              then true else st.threadsStarted q }, ?_, ?_, rfl⟩
  · simp [launch_thread, hid]
  · exact updateReg_self _ _ _

/-- Witness for C10: resubmitting over an outstanding errored record. -/
theorem claim_C10_witness :
    ∃ st', launch_thread
        { initialState with handlers := sampleReg sampleErrored }
        "render_edl" [] (some "j") 50 =
        .ok ("Please poll with id " ++ "j", st') ∧
      st'.handlers "j" = some (freshHandler 50) ∧
      freshHandler 50 =
        { status := "queued", queueTime := some 50, processTime := none,
          hasLock := false, data := none, polldata := none, error := none,
          result := none, results := none, pipe := none } :=
  claim_C10_resubmit_overwrites _ "render_edl" [] "j" 50 sampleErrored
    (by decide) rfl

/-- Claim C6: submit raises when the request carries no job identifier
(absent or empty); otherwise it creates a fresh record with status
"queued", routes the operation through the static `queueMap` table with
unknown names falling back to the "local" category, appends the envelope
to that category's (unbounded, hence non-blocking) queue, and returns
immediately with the advisory poll message — the job is still queued,
not executed. -/
theorem claim_C6_submit_validates_routes_and_returns
    (st : ServerState) (method : String) (args : List (String × String))
    (id : String) (now : Int) (hid : id ≠ "") :
    launch_thread st method args none now =
      .error "No ID found, screw this" ∧
    launch_thread st method args (some "") now =
      .error "No ID found, screw this" ∧
    ∃ st', launch_thread st method args (some id) now =
        .ok ("Please poll with id " ++ id, st') ∧
      st'.handlers id = some (freshHandler now) ∧
      (freshHandler now).status = "queued" ∧
      st'.queues ((queueMap method).getD "local") =
        st.queues ((queueMap method).getD "local") ++
          [{ method := method, args := args, id := id }] ∧
      (∀ q, q ≠ (queueMap method).getD "local" →
        st'.queues q = st.queues q) ∧
      (queueMap method = none →
        st'.queues "local" = st.queues "local" ++
          [{ method := method, args := args, id := id }]) := by
  refine ⟨rfl, rfl,
    { handlers := updateReg st.handlers id (freshHandler now),
      queues := fun q =>
        if q = (queueMap method).getD "local"
        then st.queues q ++ [{ method := method, args := args, id := id }]
        else st.queues q,
      threadsStarted := fun q =>
        if q = (queueMap method).getD "local"
        then true else st.threadsStarted q }, ?_, ?_, rfl, ?_, ?_, ?_⟩
  · simp [launch_thread, hid]
  · exact updateReg_self _ _ _
  · simp
  · intro q hq
    simp [hq]
  · intro hnone
    simp [hnone]

/-- Witness for C6 with an operation name absent from the routing
table (falls back to the "local" category). -/
theorem claim_C6_witness :
    launch_thread initialState "frobnicate" [] none 5 =
      .error "No ID found, screw this" ∧
    launch_thread initialState "frobnicate" [] (some "") 5 =
      .error "No ID found, screw this" ∧
    ∃ st', launch_thread initialState "frobnicate" [] (some "zz") 5 =
        .ok ("Please poll with id " ++ "zz", st') ∧
      st'.handlers "zz" = some (freshHandler 5) ∧
      (freshHandler 5).status = "queued" ∧
      st'.queues ((queueMap "frobnicate").getD "local") =
        initialState.queues ((queueMap "frobnicate").getD "local") ++
          [{ method := "frobnicate", args := [], id := "zz" }] ∧
      (∀ q, q ≠ (queueMap "frobnicate").getD "local" →
        st'.queues q = initialState.queues q) ∧
      (queueMap "frobnicate" = none →
        st'.queues "local" = initialState.queues "local" ++
          [{ method := "frobnicate", args := [], id := "zz" }]) :=
  claim_C6_submit_validates_routes_and_returns initialState "frobnicate"
    [] "zz" 5 (by decide)

/-- Claim C4: one worker-loop iteration on a well-formed envelope never
raises out of the loop (`runStep` is `some`, so the loop proceeds to the
next queued envelope): any exception the handler body raises is caught
and its message stored in the record's `error` field, the
unknown-operation case stores the "No thread handler exists" message as
a job error instead of crashing, and in every case the record still
reaches status "complete". -/
theorem claim_C4_worker_loop_survives_failures
    (reg : Registry) (env : Envelope)
    (outcome : Except String (Option String)) (t₁ t₂ tEnd : Int)
    (h : Handler) (qt : Int)
    (hid : env.id ≠ "") (hm : env.method ≠ "")
    (hreg : reg env.id = some h) (hqt : h.queueTime = some qt) :
    (runStep reg (some env) outcome t₁ t₂ tEnd).isSome = true ∧
    (∀ msg, outcome = .error msg → env.method ∈ knownMethods →
      ∃ reg' h', runStep reg (some env) outcome t₁ t₂ tEnd = some reg' ∧
        reg' env.id = some h' ∧ h'.status = "complete" ∧
        h'.error = some msg) ∧
    (env.method ∉ knownMethods → ∀ out : Option String,
      ∃ reg' h', runStep reg (some env) (.ok out) t₁ t₂ tEnd = some reg' ∧
        reg' env.id = some h' ∧ h'.status = "complete" ∧
        h'.error = some ("No thread handler exists for method " ++
                         env.method)) := by
  refine ⟨?_, ?_, ?_⟩
  · by_cases hk : env.method ∈ knownMethods
    · cases outcome with
      | ok out =>
        cases out with
        | none => simp [runStep, hid, hm, hreg, startJob, hqt, tryPhase,
                        finishPhase, hk]
        | some o =>
          by_cases ho : o = "" <;>
            simp [runStep, hid, hm, hreg, startJob, hqt, tryPhase,
                  finishPhase, hk, ho]
      | error msg =>
        simp [runStep, hid, hm, hreg, startJob, hqt, tryPhase,
              finishPhase, hk]
    · cases outcome <;>
        simp [runStep, hid, hm, hreg, startJob, hqt, tryPhase,
              finishPhase, hk]
  · rintro msg rfl hk
    have hrun : runStep reg (some env) (.error msg) t₁ t₂ tEnd =
        some (updateReg reg env.id
          { h with hasLock := true, status := "complete",
                   processTime := some (tEnd - t₁),
                   queueTime := some (t₂ - qt),
                   data := some [], polldata := some [],
                   error := some msg }) := by
      simp [runStep, hid, hm, hreg, startJob, hqt, tryPhase, finishPhase, hk]
    exact ⟨_, _, hrun, updateReg_self _ _ _, rfl, rfl⟩
  · intro hk out
    have hrun : runStep reg (some env) (.ok out) t₁ t₂ tEnd =
        some (updateReg reg env.id
          { h with hasLock := true, status := "complete",
                   processTime := some (tEnd - t₁),
                   queueTime := some (t₂ - qt),
                   data := some [], polldata := some [],
                   error := some ("No thread handler exists for method " ++
                                  env.method) }) := by
      simp [runStep, hid, hm, hreg, startJob, hqt, tryPhase, finishPhase, hk]
    exact ⟨_, _, hrun, updateReg_self _ _ _, rfl, rfl⟩

/-- Witness for C4: a worker iteration whose handler body raises. -/
theorem claim_C4_witness :
    (runStep (sampleReg (freshHandler 2))
        (some { method := "render_edl", args := [], id := "j" })
        (.error "kaboom") 4 5 9).isSome = true ∧
    (∀ msg, (Except.error "kaboom" : Except String (Option String)) =
        .error msg → "render_edl" ∈ knownMethods →
      ∃ reg' h', runStep (sampleReg (freshHandler 2))
          (some { method := "render_edl", args := [], id := "j" })
          (.error "kaboom") 4 5 9 = some reg' ∧
        reg' "j" = some h' ∧ h'.status = "complete" ∧
        h'.error = some msg) ∧
    ("render_edl" ∉ knownMethods → ∀ out : Option String,
      ∃ reg' h', runStep (sampleReg (freshHandler 2))
          (some { method := "render_edl", args := [], id := "j" })
          (.ok out) 4 5 9 = some reg' ∧
        reg' "j" = some h' ∧ h'.status = "complete" ∧
        h'.error = some ("No thread handler exists for method " ++
                         "render_edl")) :=
  claim_C4_worker_loop_survives_failures (sampleReg (freshHandler 2))
    { method := "render_edl", args := [], id := "j" } (.error "kaboom")
    4 5 9 (freshHandler 2) 2 (by decide) (by decide) rfl rfl

/-- Claim C8: on every normally returning poll, `queueDuration` is the
queue wait recorded when the worker dequeued the job, and
`processDuration` is consistent with the job's state — a poll on an
in-progress job reports the execution time elapsed so far
(`now - start`), while the terminal poll on a complete job reports the
final total execution duration stored by the worker. -/
theorem claim_C8_durations
    (reg : Registry) (id : String) (tSub t₁ t₂ tEnd now now₂ : Int)
    (method : String) (out : Option String) (h₁ : Handler)
    (hm : method ∈ knownMethods)
    (hstart : startJob (freshHandler tSub) t₁ t₂ = some h₁) :
    (poll (updateReg reg id h₁) id now).1 =
      .ok { status := "in-progress", result := "",
            queueDuration := t₂ - tSub, processDuration := now - t₁ } ∧
    (finishPhase (tryPhase h₁ method (.ok out)) tEnd).map
        (fun h₃ => (poll (updateReg reg id h₃) id now₂).1) =
      some (.ok { status := "complete", result := "",
                  queueDuration := t₂ - tSub,
                  processDuration := tEnd - t₁ }) := by
  have hX : ({ freshHandler tSub with
                hasLock := true, status := "in-progress",
                processTime := some t₁, queueTime := some (t₂ - tSub),
                data := some [], polldata := some [] } : Handler) = h₁ :=
    Option.some.inj hstart
  subst hX
  constructor
  · simp [poll, updateReg, freshHandler, joinChunks]
  · cases out with
    | none =>
      simp [tryPhase, hm, finishPhase, poll, updateReg, freshHandler,
            joinChunks]
    | some o =>
      by_cases ho : o = "" <;>
        simp [tryPhase, hm, finishPhase, poll, updateReg, freshHandler,
              joinChunks, ho]

/-- Witness for C8 at concrete instants. -/
theorem claim_C8_witness :
    (poll (updateReg (fun _ => none) "j"
        { freshHandler 1 with
           hasLock := true, status := "in-progress",
           processTime := some 4, queueTime := some (5 - 1),
           data := some [], polldata := some [] }) "j" 6).1 =
      .ok { status := "in-progress", result := "",
            queueDuration := 5 - 1, processDuration := 6 - 4 } ∧
    (finishPhase (tryPhase
        { freshHandler 1 with
           hasLock := true, status := "in-progress",
           processTime := some 4, queueTime := some (5 - 1),
           data := some [], polldata := some [] } "render_edl" (.ok none))
        9).map
        (fun h₃ => (poll (updateReg (fun _ => none) "j" h₃) "j" 12).1) =
      some (.ok { status := "complete", result := "",
                  queueDuration := 5 - 1, processDuration := 9 - 4 }) :=
  claim_C8_durations (fun _ => none) "j" 1 4 5 9 6 12 "render_edl" none
    { freshHandler 1 with
      hasLock := true, status := "in-progress",
      processTime := some 4, queueTime := some (5 - 1),
      data := some [], polldata := some [] }
    (by decide) rfl

/-- Claim C7 counterexample: the claim states that removing a stream
that is not registered is tolerated, logged and ignored, and never
raises out of the multiplexer's remove operation; in the code
`OutputThread.remove` has no exception guard, so removing an
unregistered stream raises a `KeyError` from `del self.idMap[fd]`. -/
theorem claim_C7_counterexample :
    OutputThread.remove { registered := [], idMap := fun _ => none } 0 =
      .error "KeyError: idMap del" := rfl

/-- Claim C7 (amended): registering an already-registered stream is
tolerated — `add` swallows the selector's duplicate-registration
`KeyError` (`try ... except KeyError: pass`) and does not raise — but
removing an unregistered stream is not tolerated: `remove` raises a
`KeyError` out of the multiplexer. -/
theorem claim_C7_add_tolerated_remove_raises
    (os : OutputState) (reg : Registry) (id : String) (h : Handler)
    (fd : Nat) (hreg : reg id = some h) (hp : h.pipe = some fd)
    (hdup : fd ∈ os.registered) :
    OutputThread.add os reg id =
      .ok { registered := os.registered,
            idMap := fun x => if x = fd then some id else os.idMap x } ∧
    (∀ (os₂ : OutputState) (fd₂ : Nat), os₂.idMap fd₂ = none →
      OutputThread.remove os₂ fd₂ = .error "KeyError: idMap del") := by
  constructor
  · simp [OutputThread.add, hreg, hp, hdup]
  · intro os₂ fd₂ hnone
    simp [OutputThread.remove, hnone]

/-- Witness for C7 (amended): a duplicate `add` on a concrete state. -/
theorem claim_C7_witness :
    OutputThread.add { registered := [4], idMap := fun _ => none }
        (sampleReg sampleTwoChunks) "j" =
      .ok { registered := [4],
            idMap := fun x => if x = 4 then some "j" else none } ∧
    (∀ (os₂ : OutputState) (fd₂ : Nat), os₂.idMap fd₂ = none →
      OutputThread.remove os₂ fd₂ = .error "KeyError: idMap del") :=
  claim_C7_add_tolerated_remove_raises
    { registered := [4], idMap := fun _ => none }
    (sampleReg sampleTwoChunks) "j" sampleTwoChunks 4 rfl rfl
    (by decide)

/-- Claim C3 counterexample: the claim says the Command Runner stores
the captured output as "the buffered chunks concatenated into a single
decoded string"; the code instead stores `b" ".join(handler['data'])`,
which inserts a space between consecutive buffered chunks — on the
two-chunk buffer ["A", "B"] it stores "A B", not the concatenation
"AB". -/
theorem claim_C3_counterexample :
    (match execCommand (sampleReg sampleTwoChunks) "j" ["cmd"] 0 with
     | .done regd => (regd "j").map Handler.result
     | _ => none) = some (some (some "A B")) ∧
    joinChunks ["A", "B"] = "AB" ∧ ("A B" : String) ≠ "AB" :=
  ⟨by decide, by decide, by decide⟩

/-- Claim C3 (amended): for a non-zero exit code `execCommand` raises a
failure whose message is exactly "Command: " plus the space-joined
command line plus " returned " plus the exit code, followed (when
non-empty output was captured) by a blank line and "Output: " plus the
buffered chunks joined with single spaces; the worker stores any raised
message as the job's `error` and the terminal poll re-raises exactly
that message.  For a zero exit code `execCommand` stores the
space-joined captured output (not the plain concatenation) under the
record's `result` key — a field `poll` never returns — and the
error-free terminal poll returns `result` equal to the true
concatenation of all drained chunks. -/
theorem claim_C3_exec_failure_and_success
    (reg : Registry) (id : String) (command : List String)
    (h : Handler) (d : List String) (retCode : Int)
    (hreg : reg id = some h) (hlk : h.hasLock = true)
    (hd : h.data = some d) (hne : d ≠ []) (hout : spaceJoin d ≠ "") :
    (retCode ≠ 0 →
      execCommand reg id command retCode =
        .raised ("Command: " ++ spaceJoin command ++ " returned " ++
                 toString retCode ++ "\n\nOutput: " ++ spaceJoin d)) ∧
    execCommand reg id command 0 =
      .done (updateReg reg id
        { h with result := some (some (spaceJoin d)) }) ∧
    (∀ (tSub t₁ t₂ tEnd now : Int) (msg method : String) (h₁ : Handler),
      method ∈ knownMethods →
      startJob (freshHandler tSub) t₁ t₂ = some h₁ →
      (finishPhase (tryPhase h₁ method (.error msg)) tEnd).map
          (fun h₃ => (poll (updateReg reg id h₃) id now).1) =
        some (.error (.jobError msg))) ∧
    (∀ (regc : Registry) (hc : Handler) (dc pdc : List String)
       (qt pt now : Int),
      regc id = some hc → hc.status = "complete" → hc.hasLock = true →
      hc.data = some dc → hc.polldata = some pdc →
      hc.queueTime = some qt → hc.processTime = some pt →
      hc.error = none →
      (poll regc id now).1 =
        .ok { status := "complete",
              result := joinChunks (pdc ++ [joinChunks dc]),
              queueDuration := qt, processDuration := pt }) := by
  refine ⟨?_, ?_, ?_, ?_⟩
  · intro hr
    simp [execCommand, hreg, hlk, hd, hne, hr, hout]
  · simp [execCommand, hreg, hlk, hd, hne]
  · intro tSub t₁ t₂ tEnd now msg method h₁ hm hstart
    have hX : ({ freshHandler tSub with
                  hasLock := true, status := "in-progress",
                  processTime := some t₁, queueTime := some (t₂ - tSub),
                  data := some [], polldata := some [] } : Handler) = h₁ :=
      Option.some.inj hstart
    subst hX
    simp [tryPhase, hm, finishPhase, poll, updateReg, freshHandler,
          joinChunks]
  · intro regc hc dc pdc qt pt now hregc hst hlk₂ hd₂ hpd₂ hqt₂ hpt₂ herr₂
    rw [poll_complete regc id hc dc pdc qt pt now hregc hst hlk₂ hd₂ hpd₂
        hqt₂ hpt₂ herr₂]

/-- Witness for C3 (amended) on a concrete two-chunk buffer. -/
theorem claim_C3_witness :
    ((7 : Int) ≠ 0 →
      execCommand (sampleReg sampleTwoChunks) "j" ["cmd"] 7 =
        .raised ("Command: " ++ spaceJoin ["cmd"] ++ " returned " ++
                 toString (7 : Int) ++ "\n\nOutput: " ++
                 spaceJoin ["A", "B"])) ∧
    execCommand (sampleReg sampleTwoChunks) "j" ["cmd"] 0 =
      .done (updateReg (sampleReg sampleTwoChunks) "j"
        { sampleTwoChunks with
          result := some (some (spaceJoin ["A", "B"])) }) ∧
    (∀ (tSub t₁ t₂ tEnd now : Int) (msg method : String) (h₁ : Handler),
      method ∈ knownMethods →
      startJob (freshHandler tSub) t₁ t₂ = some h₁ →
      (finishPhase (tryPhase h₁ method (.error msg)) tEnd).map
          (fun h₃ =>
            (poll (updateReg (sampleReg sampleTwoChunks) "j" h₃)
              "j" now).1) =
        some (.error (.jobError msg))) ∧
    (∀ (regc : Registry) (hc : Handler) (dc pdc : List String)
       (qt pt now : Int),
      regc "j" = some hc → hc.status = "complete" → hc.hasLock = true →
      hc.data = some dc → hc.polldata = some pdc →
      hc.queueTime = some qt → hc.processTime = some pt →
      hc.error = none →
      (poll regc "j" now).1 =
        .ok { status := "complete",
              result := joinChunks (pdc ++ [joinChunks dc]),
              queueDuration := qt, processDuration := pt }) :=
  claim_C3_exec_failure_and_success (sampleReg sampleTwoChunks) "j"
    ["cmd"] sampleTwoChunks ["A", "B"] 7 rfl rfl rfl (by decide)
    (by decide)

/-- Claim C1 counterexample: the claim concludes that the concatenation
of all `result` values returned across a job's polls equals the full
output produced.  In this concrete run the job produces "ab", an
intermediate poll drains and returns "ab", the worker then completes the
job, and the terminal poll returns the full `polldata` concatenation
"ab" again — so the concatenation of all returned results is "abab",
duplicating every previously drained byte. -/
theorem claim_C1_counterexample :
    (poll (sampleReg sampleInProgress) "j" 20).1 =
      .ok { status := "in-progress", result := "ab",
            queueDuration := 3, processDuration := 10 } ∧
    (match (poll (sampleReg sampleInProgress) "j" 20).2 "j" with
     | some h₁ => (finishPhase h₁ 30).map (fun h₂ =>
         (poll (updateReg (poll (sampleReg sampleInProgress) "j" 20).2
            "j" h₂) "j" 40).1)
     | none => none) =
      some (.ok { status := "complete", result := "ab",
                  queueDuration := 3, processDuration := 20 }) ∧
    "ab" ++ "ab" ≠ "ab" :=
  ⟨rfl, rfl, by decide⟩

/-- Claim C1 (amended): every poll on an in-progress job moves all of
`data` into `polldata` as one appended chunk and clears `data`, never
partially, returning exactly the just-drained bytes; the poll that
observes status "complete" returns the concatenation of every chunk
ever recorded in `polldata`; and over any interleaving of multiplexer
reads and client polls starting from the worker's freshly reset
buffers, the concatenation of the still-running polls' `result` values
plus the bytes still pending in `data` equals exactly the output
produced — no byte duplicated, none dropped — and the terminal poll
then returns the entire produced output.  (Concatenating the terminal
poll's `result` onto the still-running results, as the claim's final
clause does, double-counts every previously drained byte.) -/
theorem claim_C1_drain_exactly_once
    (os : OutputState) (fd : Nat) (id : String)
    (hos : os.idMap fd = some id) (hid : id ≠ "") :
    (∀ (reg : Registry) (h : Handler) (d pd : List String)
       (qt pt now : Int),
      reg id = some h → h.status = "in-progress" → h.hasLock = true →
      h.data = some d → h.polldata = some pd → h.queueTime = some qt →
      h.processTime = some pt →
      (poll reg id now).1 =
        .ok { status := "in-progress", result := joinChunks d,
              queueDuration := qt, processDuration := now - pt } ∧
      (poll reg id now).2 id =
        some { h with polldata := some (pd ++ [joinChunks d]),
                      data := some [] }) ∧
    (∀ (reg : Registry) (h : Handler) (d pd : List String)
       (qt pt now : Int),
      reg id = some h → h.status = "complete" → h.hasLock = true →
      h.data = some d → h.polldata = some pd → h.queueTime = some qt →
      h.processTime = some pt → h.error = none →
      (poll reg id now).1 =
        .ok { status := "complete",
              result := joinChunks (pd ++ [joinChunks d]),
              queueDuration := qt, processDuration := pt }) ∧
    (∀ (es : List JobEvent), (∀ c, JobEvent.produce c ∈ es → c ≠ "") →
      ∀ (reg : Registry) (h : Handler) (qt pt : Int),
      reg id = some h → h.status = "in-progress" → h.hasLock = true →
      h.data = some [] → h.polldata = some [] → h.queueTime = some qt →
      h.processTime = some pt → h.error = none →
      ∃ (h' : Handler) (d' pd' : List String),
        (runTrace os fd id (reg, []) es).1 id = some h' ∧
        h'.data = some d' ∧ h'.polldata = some pd' ∧
        joinChunks (runTrace os fd id (reg, []) es).2 ++ joinChunks d' =
          producedOutput es ∧
        joinChunks pd' ++ joinChunks d' = producedOutput es ∧
        (∀ (tEnd now : Int),
          (finishPhase h' tEnd).map (fun h₃ =>
            (poll (updateReg (runTrace os fd id (reg, []) es).1 id h₃)
              id now).1) =
          some (.ok { status := "complete",
                      result := producedOutput es,
                      queueDuration := qt,
                      processDuration := tEnd - pt }))) := by
  refine ⟨?_, ?_, ?_⟩
  · intro reg h d pd qt pt now hreg hst hlk hd hpd hqt hpt
    rw [poll_inProgress reg id h d pd qt pt now hreg hst hlk hd hpd hqt hpt]
    exact ⟨rfl, updateReg_self _ _ _⟩
  · intro reg h d pd qt pt now hreg hst hlk hd hpd hqt hpt herr
    rw [poll_complete reg id h d pd qt pt now hreg hst hlk hd hpd hqt hpt
        herr]
  · intro es hch reg h qt pt hreg hst hlk hd hpd hqt hpt herr
    obtain ⟨h', d', pd', hmem, hst', hlk', hd', hpd', hqt', hpt', herr',
            hres, hpoll⟩ :=
      runTrace_inv os fd id hos hid es hch reg [] h [] [] qt pt
        hreg hst hlk hd hpd hqt hpt
    have hres' : joinChunks (runTrace os fd id (reg, []) es).2 ++
        joinChunks d' = producedOutput es := by
      simpa [joinChunks, String.empty_append] using hres
    have hpoll' : joinChunks pd' ++ joinChunks d' = producedOutput es := by
      simpa [joinChunks, String.empty_append] using hpoll
    refine ⟨h', d', pd', hmem, hd', hpd', hres', hpoll', ?_⟩
    intro tEnd now
    have hfin : finishPhase h' tEnd =
        some { h' with status := "complete",
                       processTime := some (tEnd - pt) } := by
      simp [finishPhase, hpt']
    have hpc := poll_complete
      (updateReg (runTrace os fd id (reg, []) es).1 id
        { h' with status := "complete", processTime := some (tEnd - pt) })
      id { h' with status := "complete", processTime := some (tEnd - pt) }
      d' pd' qt (tEnd - pt) now (updateReg_self _ _ _) rfl hlk' hd' hpd'
      hqt' rfl (herr'.trans herr)
    have hjoin : joinChunks (pd' ++ [joinChunks d']) = producedOutput es := by
      rw [joinChunks_append, joinChunks_singleton]
      exact hpoll'
    rw [hfin, Option.map_some', hpc, hjoin]

/-- Witness for C1 (amended): the single-poll drain conjunct applied to
a concrete in-progress record holding one chunk. -/
theorem claim_C1_witness :
    (poll (sampleReg sampleInProgress) "j" 20).1 =
      .ok { status := "in-progress", result := joinChunks ["ab"],
            queueDuration := 3, processDuration := 20 - 10 } ∧
    (poll (sampleReg sampleInProgress) "j" 20).2 "j" =
      some { sampleInProgress with
             polldata := some ([] ++ [joinChunks ["ab"]]),
             data := some [] } :=
  (claim_C1_drain_exactly_once
      { registered := [5], idMap := fun x => if x = 5 then some "j" else none }
      5 "j" rfl (by decide)).1
    (sampleReg sampleInProgress) sampleInProgress ["ab"] [] 3 10 20
    rfl rfl rfl rfl rfl rfl rfl
